import Mathlib

/-!
Verification of the EXIFrenameX timestamp-resolution and rename/undo core
(`Sourcecode/EXIFrenameX.pyw`) against its natural-language specification.

The Python code is shallowly embedded: pure helpers become Lean functions,
calls into external libraries (`datetime.strptime`, ExifTool, exifread, PIL,
pymediainfo, `os.stat`, `os.rename`) are parameters of an explicit
environment record, a raised Python exception is an `Except.error`, and a
`None` result is `Option.none`.  The filesystem directory that a batch run
mutates is a list of file names (the application always works inside one
fixed folder, whose files come from `os.listdir`, so a full path is
`folder + "/" + name` and basenames identify files uniquely).
-/

/-- Model of `datetime.datetime`: the calendar fields the application reads.
Timezone-aware values are identified by their field values; the application
never inspects the tzinfo component. -/
structure DateTime where
  year : Nat
  month : Nat
  day : Nat
  hour : Nat
  minute : Nat
  second : Nat
deriving DecidableEq, Repr

/-- Decimal digit characters, as used by CPython when rendering an `int`. -/
def digit_char (d : Nat) : Char :=
  if d = 0 then '0' else if d = 1 then '1' else if d = 2 then '2'
  else if d = 3 then '3' else if d = 4 then '4' else if d = 5 then '5'
  else if d = 6 then '6' else if d = 7 then '7' else if d = 8 then '8'
  else '9'

/-- Fuelled decimal rendering of a natural number (most significant digit
first).  With `fuel ≥ n` this is CPython's `str(n)` for a nonnegative int;
the fuel only bounds the recursion depth. -/
def nat_to_dec_list : Nat → Nat → List Char
  | 0, n => [digit_char (n % 10)]
  | fuel+1, n =>
    if n < 10 then [digit_char n]
    else nat_to_dec_list fuel (n / 10) ++ [digit_char (n % 10)]

/-- Model of CPython `str(n)` for a nonnegative integer. -/
def nat_to_dec (n : Nat) : String := String.mk (nat_to_dec_list n n)

/-- Model of `str.lower` (the code only lowercases ASCII extensions). -/
def lower (s : String) : String := String.mk (s.data.map Char.toLower)

/-- Index of the last occurrence of `c` in `l`, or `-1` when absent: the
value CPython's `str.rfind` returns. -/
def rfind (c : Char) (l : List Char) : Int :=
  match l.reverse.findIdx? (fun x => x = c) with
  | some i => (l.length : Int) - 1 - (i : Int)
  | none => -1

/-- Model of `os.path.splitext` (CPython `genericpath._splitext` with
separator `/`): split off the extension at the last dot, unless every
character between the last separator and that dot is itself a dot (a
leading-dot file such as `.bashrc` has no extension). -/
def splitext (p : String) : String × String :=
  let l := p.data
  let sepIndex : Int := rfind '/' l
  let dotIndex : Int := rfind '.' l
  if sepIndex < dotIndex then
    let filenameStart : Nat := (sepIndex + 1).toNat
    let middle := (l.take dotIndex.toNat).drop filenameStart
    if middle.all (fun c => c = '.') then (p, "")
    else (String.mk (l.take dotIndex.toNat), String.mk (l.drop dotIndex.toNat))
  else (p, "")

/-- Characters CPython `str.strip` removes. -/
def is_py_space (c : Char) : Bool :=
  c = ' ' || c = '\t' || c = '\n' || c = '\r' || c = '\x0b' || c = '\x0c'

/-- Model of `str.strip()`. -/
def py_strip (s : String) : String :=
  String.mk (((s.data.dropWhile is_py_space).reverse.dropWhile is_py_space).reverse)

def is_ascii_digit (c : Char) : Bool := '0' ≤ c && c ≤ '9'

def is_sign_char (c : Char) : Bool := c = '+' || c = '-'

/-- Model of `re.sub(r'([+-]\d\x7b2\x7d:?\d\x7b2\x7d|Z)$', '', s)`: remove a
trailing `+HH:MM`/`-HH:MM`, `+HHMM`/`-HHMM`, or literal `Z`.  All
alternatives are anchored at the end, so the leftmost match is the longest
suffix form that applies. -/
def strip_tz_data (l : List Char) : List Char :=
  let n := l.length
  let at6 := n ≥ 6 && is_sign_char (l.getD (n-6) ' ') && is_ascii_digit (l.getD (n-5) ' ')
      && is_ascii_digit (l.getD (n-4) ' ') && (l.getD (n-3) ' ' = ':')
      && is_ascii_digit (l.getD (n-2) ' ') && is_ascii_digit (l.getD (n-1) ' ')
  let at5 := n ≥ 5 && is_sign_char (l.getD (n-5) ' ') && is_ascii_digit (l.getD (n-4) ' ')
      && is_ascii_digit (l.getD (n-3) ' ') && is_ascii_digit (l.getD (n-2) ' ')
      && is_ascii_digit (l.getD (n-1) ' ')
  if at6 then l.take (n-6)
  else if at5 then l.take (n-5)
  else if l.getLast? = some 'Z' then l.take (n-1)
  else l

/-- Timezone-suffix removal plus `strip()`, as applied to `dt_string_no_tz`
in `parse_exiftool_datetime`. -/
def strip_tz (s : String) : String := py_strip (String.mk (strip_tz_data s.data))

/-- The ordered tuple `date_formats` of `parse_exiftool_datetime`. -/
def date_formats : List String :=
  ["%Y:%m:%d %H:%M:%S", "%Y-%m-%d %H:%M:%S", "%Y:%m:%d %H:%M:%S%z",
   "%Y-%m-%dT%H:%M:%S", "%Y-%m-%dT%H:%M:%S%z", "%Y-%m-%dT%H:%M:%S.%fZ",
   "%Y-%m-%d %H:%M:%S%z"]

/-- Embedding of `parse_exiftool_datetime`.  `strptime text fmt` models
`datetime.datetime.strptime(text, fmt)`, with `none` standing for a raised
exception (every raise inside the function body is caught by its
`try/except` blocks).  The loop returns the first format that parses; when
all fail, the timezone suffix is stripped and the base format is retried
exactly once. -/
def parse_exiftool_datetime (strptime : String → String → Option DateTime)
    (dt_string : String) : Option DateTime :=
  match date_formats.findSome? (fun fmt => strptime dt_string fmt) with
  | some d => some d
  | none => strptime (strip_tz dt_string) "%Y:%m:%d %H:%M:%S"

example : splitext "IMG_0001.jpg" = ("IMG_0001", ".jpg") := by decide
example : splitext ".bashrc" = (".bashrc", "") := by decide
example : splitext "a/b.c/name.txt" = ("a/b.c/name", ".txt") := by decide
example : strip_tz "2023:04:13 14:30:15+02:00" = "2023:04:13 14:30:15" := by decide
example : strip_tz "2023-04-13T14:30:15Z" = "2023-04-13T14:30:15" := by decide
example : strip_tz "2023:04:13 14:30:15+0200" = "2023:04:13 14:30:15" := by decide
example : nat_to_dec 10 = "10" := by decide
example : nat_to_dec 1 = "1" := by decide

/-- The fixed ordered list `EXIFTOOL_DATE_TAGS`. -/
def EXIFTOOL_DATE_TAGS : List String :=
  ["EXIF:DateTimeOriginal", "EXIF:CreateDate", "QuickTime:CreateDate",
   "QuickTime:MediaCreateDate", "XMP:CreateDate", "File:FileModifyDate",
   "File:FileCreateDate", "Composite:SubSecDateTimeOriginal",
   "Composite:DateTimeCreated", "QuickTime:TrackCreateDate",
   "QuickTime:TrackModifyDate", "QuickTime:ModifyDate",
   "QuickTime:ContentCreateDate", "PNG:CreationTime"]

def EXIF_EXTENSIONS : List String :=
  [".jpg", ".jpeg", ".png", ".arw", ".nef", ".tiff", ".webp", ".bmp",
   ".cr2", ".orf", ".rw2", ".rwl", ".srw"]

def HEIC_EXTENSIONS : List String := [".heic"]

def VIDEO_EXTENSIONS : List String :=
  [".mp4", ".mov", ".3gp", ".avi", ".mkv", ".mts", ".m2ts", ".wmv"]

/-- Result of `os.stat`: the timestamp fields `get_file_system_date` reads.
`st_birthtime = none` models a platform whose stat result lacks that
attribute. -/
structure StatResult where
  st_birthtime : Option Int
  st_ctime : Int
  st_mtime : Int
deriving DecidableEq, Repr

/-- Behaviour of the external libraries and the operating system during one
metadata read.  An `Except.error` value models a raised Python exception;
`strptime` / `fromtimestamp_fails` model `datetime.datetime.strptime` and
exceptions from `datetime.datetime.fromtimestamp`. -/
structure MetaEnv where
  strptime : String → String → Option DateTime
  get_metadata : String → Except String (List (String × String))
  exifread_tags : String → Except String (Option String × Option String)
  heic_xmp_create_date : String → Except String (Option String)
  media_tracks : String → Except String (List (List (String × String)))
  stat : String → Except String StatResult
  fromtimestamp : Int → DateTime
  fromtimestamp_fails : Int → Bool

/-- Embedding of `MediaMetadataService.get_exiftool_date`: run the external
tool, then return the first tag of `EXIFTOOL_DATE_TAGS` that is present in
the metadata and whose value parses; any raised exception is caught and
yields `none`. -/
def get_exiftool_date (env : MetaEnv) (file_path : String) : Option DateTime :=
  match env.get_metadata file_path with
  | .error _ => none
  | .ok md =>
    EXIFTOOL_DATE_TAGS.findSome? fun tag =>
      match md.lookup tag with
      | none => none
      | some v => parse_exiftool_datetime env.strptime v

/-- Embedding of `MediaMetadataService.get_exif_date`: read the exifread tag
pair (`EXIF DateTimeOriginal`, `EXIF DateTime`), take the first present one
(defaulting to the empty string), and parse it with the base format; every
raised exception — including a parse failure — is caught and yields `none`. -/
def get_exif_date (env : MetaEnv) (file_path : String) : Option DateTime :=
  match env.exifread_tags file_path with
  | .error _ => none
  | .ok (dto, dt) =>
    let date_str := match dto with
      | some s => s
      | none => dt.getD ""
    if date_str = "" then none
    else env.strptime date_str "%Y:%m:%d %H:%M:%S"

/-- Embedding of `MediaMetadataService.get_heic_exif_date`: extract the
`xmp:CreateDate` attribute from the container's XMP block (the PIL open, the
decode and the regex search are modelled as one fallible lookup) and try the
two ISO formats in order; every raised exception is caught and yields
`none`. -/
def get_heic_exif_date (env : MetaEnv) (file_path : String) : Option DateTime :=
  match env.heic_xmp_create_date file_path with
  | .error _ => none
  | .ok none => none
  | .ok (some dt) =>
    ["%Y-%m-%dT%H:%M:%S", "%Y-%m-%dT%H:%M:%S%z"].findSome? fun fmt =>
      env.strptime dt fmt

/-- The track-level keys `get_media_date` probes, in priority order. -/
def MEDIA_DATE_KEYS : List String :=
  ["comapplequicktimecreationdate", "recorded_date", "encoded_date", "tagged_date"]

/-- Normalisation applied to a MediaInfo date string:
`date_str.replace('T', ' ').split('+')[0]`. -/
def normalize_media_date (s : String) : String :=
  String.mk (((s.data.map fun c => if c = 'T' then ' ' else c).takeWhile
    fun c => c ≠ '+'))

/-- Embedding of `MediaMetadataService.get_media_date`: for each track and
each key in priority order, take the first non-empty date string that parses
under one of the two accepted formats after normalisation; every raised
exception is caught and yields `none`. -/
def get_media_date (env : MetaEnv) (file_path : String) : Option DateTime :=
  match env.media_tracks file_path with
  | .error _ => none
  | .ok tracks =>
    tracks.findSome? fun track =>
      MEDIA_DATE_KEYS.findSome? fun key =>
        match track.lookup key with
        | none => none
        | some ds =>
          if ds = "" then none
          else
            let ds2 := normalize_media_date ds
            ["%Y-%m-%d %H:%M:%S", "%Y-%m-%d %H:%M:%S %Z"].findSome? fun fmt =>
              env.strptime ds2 fmt

/-- Embedding of `MediaMetadataService.get_file_system_date`.  The `os.stat`
call sits before the `try` block, so a stat fault propagates to the caller;
inside the `try`, the birth time is preferred when the platform exposes one,
else the status-change time, and a conversion fault falls back to the
last-modified time (whose own conversion fault would propagate). -/
def get_file_system_date (env : MetaEnv) (file_path : String) : Except String DateTime :=
  match env.stat file_path with
  | .error e => .error e
  | .ok st =>
    let primary := match st.st_birthtime with
      | some b => b
      | none => st.st_ctime
    if env.fromtimestamp_fails primary then
      if env.fromtimestamp_fails st.st_mtime then .error "fromtimestamp raised"
      else .ok (env.fromtimestamp st.st_mtime)
    else .ok (env.fromtimestamp primary)

/-- Embedding of `MediaMetadataService.get_best_date`: the adapter cascade
exactly as written in the source — ExifTool always, classic EXIF for
still-image extensions, HEIC/XMP for `.heic`, MediaInfo for video
extensions, then the (unguarded) filesystem fallback when requested. -/
def get_best_date (env : MetaEnv) (file_path : String) (use_fallback : Bool) :
    Except String (Option DateTime) :=
  let ext := lower (splitext file_path).2
  match get_exiftool_date env file_path with
  | some d => .ok (some d)
  | none =>
  match (if EXIF_EXTENSIONS.contains ext then get_exif_date env file_path else none) with
  | some d => .ok (some d)
  | none =>
  match (if HEIC_EXTENSIONS.contains ext then get_heic_exif_date env file_path else none) with
  | some d => .ok (some d)
  | none =>
  match (if VIDEO_EXTENSIONS.contains ext then get_media_date env file_path else none) with
  | some d => .ok (some d)
  | none =>
    if use_fallback then (get_file_system_date env file_path).map some
    else .ok none

/-- Modelled from the spec: the resolver contract of §4.3, written from the
specification's words — evaluate the adapters in the strict fixed order
ToolTags, ClassicExif (still images only), HeicXmp (`.heic` only), MediaInfo
(video only), FilesystemStat (only with fallback enabled), short-circuiting
on the first present result.  Compared against `get_best_date` for the
refinement claim. -/
def resolve_spec (env : MetaEnv) (file_path : String) (use_fallback : Bool) :
    Except String (Option DateTime) :=
  let ext := lower (splitext file_path).2
  let gated : List (Option DateTime) :=
    [get_exiftool_date env file_path,
     if EXIF_EXTENSIONS.contains ext then get_exif_date env file_path else none,
     if HEIC_EXTENSIONS.contains ext then get_heic_exif_date env file_path else none,
     if VIDEO_EXTENSIONS.contains ext then get_media_date env file_path else none]
  match gated.findSome? id with
  | some d => .ok (some d)
  | none =>
    if use_fallback then (get_file_system_date env file_path).map some
    else .ok none

/-- Zero-padded two-digit rendering, as `strftime` produces for `%m`, `%d`,
`%H`, `%M`, `%S`. -/
def pad2 (n : Nat) : String := if n < 10 then "0" ++ nat_to_dec n else nat_to_dec n

/-- Zero-padded four-digit rendering for `%Y`. -/
def pad4 (n : Nat) : String :=
  if n < 10 then "000" ++ nat_to_dec n
  else if n < 100 then "00" ++ nat_to_dec n
  else if n < 1000 then "0" ++ nat_to_dec n
  else nat_to_dec n

/-- Expansion of a single `strftime` directive character.  The six numeric
directives used by the application's format presets are modelled exactly;
any other directive is platform-delegated by CPython and modelled as a
literal pass-through. -/
def strftime_directive (dt : DateTime) (c : Char) : String :=
  if c = 'Y' then pad4 dt.year
  else if c = 'm' then pad2 dt.month
  else if c = 'd' then pad2 dt.day
  else if c = 'H' then pad2 dt.hour
  else if c = 'M' then pad2 dt.minute
  else if c = 'S' then pad2 dt.second
  else if c = '%' then "%"
  else String.mk ['%', c]

def strftime_chars (dt : DateTime) : List Char → List Char
  | [] => []
  | '%' :: c :: rest => (strftime_directive dt c).data ++ strftime_chars dt rest
  | c :: rest => c :: strftime_chars dt rest

/-- Model of `datetime.strftime` on the directive subset above. -/
def strftime (dt : DateTime) (fmt : String) : String :=
  String.mk (strftime_chars dt fmt.data)

/-- Embedding of `get_formatted_name`: split the original filename into base
and extension, render the timestamp, and combine according to
`radio_option` (0 date only, 1 date + original, 2 original only,
3 original + date, anything else the date-only default). -/
def get_formatted_name (datetime_obj : DateTime) (filename : String)
    (format_str : String) (prefix_str : String) (suffix_str : String)
    (radio_option : Int) : String :=
  let base_name := (splitext filename).1
  let ext := (splitext filename).2
  let new_time := strftime datetime_obj format_str
  if radio_option = 0 then prefix_str ++ new_time ++ suffix_str ++ ext
  else if radio_option = 1 then prefix_str ++ new_time ++ "_" ++ base_name ++ suffix_str ++ ext
  else if radio_option = 2 then prefix_str ++ base_name ++ suffix_str ++ ext
  else if radio_option = 3 then prefix_str ++ base_name ++ "_" ++ new_time ++ suffix_str ++ ext
  else prefix_str ++ new_time ++ suffix_str ++ ext

example :
    get_formatted_name ⟨2023, 4, 13, 14, 30, 15⟩ "IMG_0001.jpg"
      "%Y-%m-%d_%H-%M-%S" "" "" 0 = "2023-04-13_14-30-15.jpg" := by decide

/-- The naming settings dictionary a batch run receives. -/
structure NamingSettings where
  format_str : String
  prefix_str : String
  suffix_str : String
  radio_option : Int

/-- Behaviour of the outside world during one batch run, per file name of
the fixed target folder.  `best_date name` is the outcome of
`MediaMetadataService.get_best_date` on the file's full path with the run's
fallback flag (`Except.error` = the call raised, as the unguarded
`os.stat` fallback can); `rename_fault old new` is a raised `os.rename`
exception; `stop_at idx` is the cancellation flag polled at loop index
`idx`. -/
structure BatchEnv where
  best_date : String → Except String (Option DateTime)
  rename_fault : String → String → Option String
  stop_at : Nat → Bool

/-- Mutable state of `RenameService.rename_files`: the folder's directory
listing plus the four result accumulators and the within-batch set of
assigned names (modelled as a list, membership being all the code uses). -/
structure BatchState where
  dir : List String
  renamed_files : List String
  files_without_metadata : List String
  errors : List String
  rename_pairs : List (String × String)
  name_set : List String
deriving Repr

def init_batch_state (dir0 : List String) : BatchState :=
  ⟨dir0, [], [], [], [], []⟩

/-- One name is in use when it is in the within-batch name set or currently
exists in the target folder — the `while` condition of the collision loop. -/
def name_used (st : BatchState) (n : String) : Bool :=
  st.name_set.contains n || st.dir.contains n

/-- The suffixed candidate the collision loop builds at counter `i`:
`name_root + "_" + str(i) + name_ext`. -/
def numbered_name (name_root name_ext : String) (i : Nat) : String :=
  name_root ++ "_" ++ nat_to_dec i ++ name_ext

/-- Fuelled unfolding of the collision `while` loop from counter `i`: try
`numbered_name root ext i`, `i+1`, … until an unused name is found.  The
callers pass fuel exceeding the number of used names, and successive
candidates are pairwise distinct, so the fuel never runs out on the path
the code takes. -/
def collision_loop (used : String → Bool) (name_root name_ext : String) :
    Nat → Nat → String
  | _, 0 => name_root ++ name_ext
  | i, fuel+1 =>
    let cand := numbered_name name_root name_ext i
    if used cand then collision_loop used name_root name_ext (i+1) fuel
    else cand

/-- The collision-resolution step of `rename_files`: keep the formatted
candidate if unused, otherwise run the suffix loop on its stem and
extension. -/
def find_free_name (st : BatchState) (candidate : String) : String :=
  if name_used st candidate then
    let name_root := (splitext candidate).1
    let name_ext := (splitext candidate).2
    collision_loop (name_used st) name_root name_ext 1
      (st.name_set.length + st.dir.length + 1)
  else candidate

/-- The body of the `for` loop of `RenameService.rename_files` for one file:
resolve its date (a raised exception lands in `errors`), skip it when no
date is found, otherwise format, de-collide and rename it (a rename fault
lands in `errors`; success updates the folder listing, every accumulator
and the name set). -/
def rename_step (env : BatchEnv) (settings : NamingSettings)
    (st : BatchState) (filename : String) : BatchState :=
  match env.best_date filename with
  | .error e =>
    { st with errors := st.errors ++ [filename ++ " (Error: " ++ e ++ ")"] }
  | .ok none =>
    { st with files_without_metadata := st.files_without_metadata ++ [filename] }
  | .ok (some date_obj) =>
    let candidate := get_formatted_name date_obj filename settings.format_str
      settings.prefix_str settings.suffix_str settings.radio_option
    let new_name := find_free_name st candidate
    match env.rename_fault filename new_name with
    | some e =>
      { st with errors := st.errors ++ [filename ++ " (Error: " ++ e ++ ")"] }
    | none =>
      { dir := new_name :: st.dir.erase filename
        renamed_files := st.renamed_files ++ [new_name]
        files_without_metadata := st.files_without_metadata
        errors := st.errors
        rename_pairs := st.rename_pairs ++ [(filename, new_name)]
        name_set := st.name_set ++ [new_name] }

/-- The `for` loop of `rename_files`: poll the cancellation flag before each
file (`break` on cancellation), otherwise process the file and continue. -/
def rename_loop (env : BatchEnv) (settings : NamingSettings) :
    List String → Nat → BatchState → BatchState
  | [], _, st => st
  | f :: rest, idx, st =>
    if env.stop_at idx then st
    else rename_loop env settings rest (idx + 1) (rename_step env settings st f)

/-- The rename history: a stack of batches, most recent first (the Python
list's tail end, where `append`/`pop` operate). -/
def RenameHistory := List (List (String × String))

/-- Embedding of `RenameService.rename_files`: run the loop over the files
of the folder and push the batch's pair list onto the history when it is
non-empty.  Returns the final loop state and the new history. -/
def rename_files (env : BatchEnv) (settings : NamingSettings)
    (dir0 : List String) (files : List String)
    (history : List (List (String × String))) :
    BatchState × List (List (String × String)) :=
  let st := rename_loop env settings files 0 (init_batch_state dir0)
  (st, if st.rename_pairs.isEmpty then history else st.rename_pairs :: history)

/-- History of a fresh `RenameService` (`self.rename_history = []`). -/
def initial_history : List (List (String × String)) := []

/-- Accumulator state of `undo_last_rename`: the folder listing plus the
`undone` and `errors` lists. -/
structure UndoState where
  dir : List String
  undone : List (String × String)
  errors : List String
deriving Repr

/-- One pair of the undo replay: rename the destination back to its original
path only if the destination still exists and the original path is free;
otherwise record the per-pair error.  `fault` models a raised `os.rename`,
which the surrounding `try/except` converts into an error entry. -/
def undo_step (fault : String → String → Option String) (st : UndoState)
    (pair : String × String) : UndoState :=
  let old_path := pair.1
  let new_path := pair.2
  if st.dir.contains new_path then
    if st.dir.contains old_path then
      { st with errors := st.errors ++ ["Target exists: " ++ old_path] }
    else
      match fault new_path old_path with
      | some e =>
        { st with errors := st.errors ++ ["Error: " ++ new_path ++ ": " ++ e] }
      | none =>
        { dir := old_path :: st.dir.erase new_path
          undone := st.undone ++ [(new_path, old_path)]
          errors := st.errors }
  else { st with errors := st.errors ++ ["File not found: " ++ new_path] }

/-- Embedding of `RenameService.undo_last_rename`: an empty history reports
`"Nothing to undo."` and changes nothing; otherwise the most recent batch is
popped and its pairs are replayed in reverse order.  Returns the undo result
together with the new history. -/
def undo_last_rename (fault : String → String → Option String)
    (history : List (List (String × String))) (dir : List String) :
    UndoState × List (List (String × String)) :=
  match history with
  | [] => (⟨dir, [], ["Nothing to undo."]⟩, [])
  | last_pairs :: rest =>
    (last_pairs.reverse.foldl (undo_step fault) ⟨dir, [], []⟩, rest)

/-! ### Auxiliary lemmas about the string models -/

lemma string_mk_inj {a b : List Char} (h : String.mk a = String.mk b) : a = b := by
  injection h

lemma string_data_eq {a b : String} (h : a.data = b.data) : a = b := by
  cases a; cases b; simp_all

lemma nat_to_dec_list_len_pos : ∀ fuel n, 1 ≤ (nat_to_dec_list fuel n).length := by
  intro fuel n
  cases fuel with
  | zero => simp [nat_to_dec_list]
  | succ f =>
    by_cases h : n < 10 <;> simp [nat_to_dec_list, h]

lemma digit_char_inj : ∀ a < 10, ∀ b < 10, digit_char a = digit_char b → a = b := by
  decide

lemma nat_to_dec_list_fuel : ∀ n f1 f2, n ≤ f1 → n ≤ f2 →
    nat_to_dec_list f1 n = nat_to_dec_list f2 n := by
  intro n
  induction n using Nat.strong_induction_on with
  | _ n IH =>
    intro f1 f2 h1 h2
    match f1, f2 with
    | 0, f2 =>
      have hn : n = 0 := by omega
      subst hn
      cases f2 <;> simp [nat_to_dec_list]
    | f+1, 0 =>
      have hn : n = 0 := by omega
      subst hn
      simp [nat_to_dec_list]
    | f+1, g+1 =>
      by_cases h : n < 10
      · simp [nat_to_dec_list, h]
      · have hdiv : n / 10 < n := Nat.div_lt_self (by omega) (by omega)
        simp only [nat_to_dec_list, h, if_false]
        rw [IH (n / 10) hdiv f g (by omega) (by omega)]

lemma nat_to_dec_list_inj : ∀ f g m n, m ≤ f → n ≤ g →
    nat_to_dec_list f m = nat_to_dec_list g n → m = n := by
  have small : ∀ g m n, m < 10 → n ≤ g →
      nat_to_dec_list m m = nat_to_dec_list g n → m = n := by
    intro g m n hm hn heq
    by_cases h2 : n < 10
    · rw [nat_to_dec_list_fuel m m m (le_refl m) (le_refl m),
        nat_to_dec_list_fuel n g n hn (le_refl n)] at heq
      have e1 : nat_to_dec_list m m = [digit_char m] := by
        cases m <;> simp [nat_to_dec_list, hm]
      have e2 : nat_to_dec_list n n = [digit_char n] := by
        cases n <;> simp [nat_to_dec_list, h2]
      rw [e1, e2] at heq
      exact digit_char_inj m hm n h2 (by simpa using heq)
    · exfalso
      have hg : g = (g - 1) + 1 := by omega
      rw [hg] at heq
      simp only [nat_to_dec_list, h2, if_false] at heq
      have e1 : nat_to_dec_list m m = [digit_char m] := by
        cases m <;> simp [nat_to_dec_list, hm]
      rw [e1] at heq
      have hlen := congrArg List.length heq
      have hpos := nat_to_dec_list_len_pos (g - 1) (n / 10)
      simp only [List.length_append, List.length_cons, List.length_nil] at hlen
      omega
  intro f
  induction f with
  | zero =>
    intro g m n hm hn heq
    have hm0 : m = 0 := by omega
    subst hm0
    exact small g 0 n (by omega) hn (by
      rwa [nat_to_dec_list_fuel 0 0 0 (le_refl 0) (le_refl 0)])
  | succ f' ih =>
    intro g m n hm hn heq
    by_cases h : m < 10
    · exact small g m n h hn (by
        rwa [nat_to_dec_list_fuel m (f' + 1) m hm (le_refl m)] at heq)
    · by_cases h2 : n < 10
      · have := small (f' + 1) n m h2 hm (by
          rw [nat_to_dec_list_fuel n n n (le_refl n) (le_refl n)]
          rw [nat_to_dec_list_fuel n g n hn (le_refl n)] at heq
          exact heq.symm)
        omega
      · have hg : g = (g - 1) + 1 := by omega
        rw [hg] at heq
        simp only [nat_to_dec_list, h, h2, if_false] at heq
        have hsplit := List.append_inj' heq (by rfl)
        have hdm : m / 10 < m := Nat.div_lt_self (by omega) (by omega)
        have hdn : n / 10 < n := Nat.div_lt_self (by omega) (by omega)
        have hquot : m / 10 = n / 10 :=
          ih (g - 1) (m / 10) (n / 10) (by omega) (by omega) hsplit.1
        have hdig : digit_char (m % 10) = digit_char (n % 10) := by
          have := hsplit.2
          simpa using this
        have hmod : m % 10 = n % 10 :=
          digit_char_inj (m % 10) (Nat.mod_lt _ (by omega)) (n % 10)
            (Nat.mod_lt _ (by omega)) hdig
        omega

lemma nat_to_dec_inj {m n : Nat} (h : nat_to_dec m = nat_to_dec n) : m = n :=
  nat_to_dec_list_inj m n m n (le_refl m) (le_refl n) (string_mk_inj h)

lemma nat_to_dec_len_pos (n : Nat) : 1 ≤ (nat_to_dec n).data.length :=
  nat_to_dec_list_len_pos n n

lemma numbered_name_inj {r e : String} {i j : Nat}
    (h : numbered_name r e i = numbered_name r e j) : i = j := by
  have hd : r.data ++ ('_' :: ((nat_to_dec i).data ++ e.data)) =
      r.data ++ ('_' :: ((nat_to_dec j).data ++ e.data)) := by
    have := congrArg String.data h
    simpa [numbered_name, String.data_append] using this
  have h1 := List.append_cancel_left hd
  have h2 : (nat_to_dec i).data ++ e.data = (nat_to_dec j).data ++ e.data := by
    injection h1
  have h3 : (nat_to_dec i).data = (nat_to_dec j).data := List.append_cancel_right h2
  exact nat_to_dec_inj (string_data_eq h3)

lemma numbered_name_ne_plain (r e : String) (i : Nat) :
    numbered_name r e i ≠ r ++ e := by
  intro h
  have hd := congrArg (fun s => s.data.length) h
  simp [numbered_name, String.data_append] at hd
  have := nat_to_dec_len_pos i
  omega

lemma splitext_append (p : String) : (splitext p).1 ++ (splitext p).2 = p := by
  unfold splitext
  by_cases h1 : rfind '/' p.data < rfind '.' p.data
  · by_cases h2 : ((p.data.take (rfind '.' p.data).toNat).drop
        ((rfind '/' p.data) + 1).toNat).all (fun c => c = '.')
    · simp [h1, h2]
    · simp only [h1, h2, if_true, if_false]
      apply string_data_eq
      simp [String.data_append]
  · simp [h1]

/-! ### C8: the datetime parser -/

/-- C8: `parse_exiftool_datetime` tries the fixed ordered format list until
one matches; a successful result always comes from one of those attempts or
from the single retry of the base pattern on the timezone-stripped string;
the retry happens exactly once; and the result is `NotParseable` (`none`)
if and only if every listed format and the stripped retry fail.  The
function returns an `Option` with every library exception caught, so no
fault reaches the caller. -/
theorem C8_parse_datetime (st : String → String → Option DateTime) (s : String) :
    (parse_exiftool_datetime st s = none ↔
      ((∀ fmt ∈ date_formats, st s fmt = none) ∧
        st (strip_tz s) "%Y:%m:%d %H:%M:%S" = none)) ∧
    (∀ d, parse_exiftool_datetime st s = some d →
      (∃ fmt ∈ date_formats, st s fmt = some d) ∨
        st (strip_tz s) "%Y:%m:%d %H:%M:%S" = some d) ∧
    (∀ d, st s "%Y:%m:%d %H:%M:%S" = some d → parse_exiftool_datetime st s = some d) := by
  refine ⟨⟨?_, ?_⟩, ?_, ?_⟩
  · intro hn
    unfold parse_exiftool_datetime at hn
    cases h : date_formats.findSome? (fun fmt => st s fmt) with
    | none =>
      rw [h] at hn
      exact ⟨List.findSome?_eq_none_iff.mp h, hn⟩
    | some d0 =>
      rw [h] at hn
      simp at hn
  · intro hall
    unfold parse_exiftool_datetime
    rw [List.findSome?_eq_none_iff.mpr hall.1]
    exact hall.2
  · intro d hpd
    unfold parse_exiftool_datetime at hpd
    cases h : date_formats.findSome? (fun fmt => st s fmt) with
    | none =>
      rw [h] at hpd
      exact Or.inr hpd
    | some d0 =>
      rw [h] at hpd
      simp only [Option.some.injEq] at hpd
      subst hpd
      exact Or.inl (List.exists_of_findSome?_eq_some h)
  · intro d hbase
    unfold parse_exiftool_datetime
    have h : date_formats.findSome? (fun fmt => st s fmt) = some d := by
      simp [date_formats, List.findSome?_cons, hbase]
    rw [h]

/-- Concrete strptime behaviour used to witness the parser claim: only the
base format on the timezone-stripped text succeeds. -/
def strptime_w : String → String → Option DateTime := fun t f =>
  if f = "%Y:%m:%d %H:%M:%S" && t = "2023:04:13 14:30:15" then
    some ⟨2023, 4, 13, 14, 30, 15⟩
  else none

theorem C8_parse_datetime_witness :
    parse_exiftool_datetime strptime_w "2023:04:13 14:30:15" =
      some ⟨2023, 4, 13, 14, 30, 15⟩ :=
  (C8_parse_datetime strptime_w "2023:04:13 14:30:15").2.2
    ⟨2023, 4, 13, 14, 30, 15⟩ (by decide)

/-! ### C9: the name formatter -/

/-- C9: `get_formatted_name` splits the filename with `splitext`, renders
the timestamp with the format string, and combines prefix, date, base name,
suffix and extension according to the four naming patterns; on the concrete
scenario of the spec it yields `2023-04-13_14-30-15.jpg`. -/
theorem C9_get_formatted_name (dt : DateTime) (fn fmt pre suf : String) :
    (get_formatted_name dt fn fmt pre suf 0 =
      pre ++ strftime dt fmt ++ suf ++ (splitext fn).2) ∧
    (get_formatted_name dt fn fmt pre suf 1 =
      pre ++ strftime dt fmt ++ "_" ++ (splitext fn).1 ++ suf ++ (splitext fn).2) ∧
    (get_formatted_name dt fn fmt pre suf 2 =
      pre ++ (splitext fn).1 ++ suf ++ (splitext fn).2) ∧
    (get_formatted_name dt fn fmt pre suf 3 =
      pre ++ (splitext fn).1 ++ "_" ++ strftime dt fmt ++ suf ++ (splitext fn).2) ∧
    get_formatted_name ⟨2023, 4, 13, 14, 30, 15⟩ "IMG_0001.jpg"
      "%Y-%m-%d_%H-%M-%S" "" "" 0 = "2023-04-13_14-30-15.jpg" := by
  refine ⟨rfl, rfl, rfl, rfl, by decide⟩

/-! ### C1: resolver precedence order -/

/-- Short-circuit cascade over four gated adapter results, expressed once
over the results themselves: the nested option matches of the source equal
the first-success scan of the specification. -/
lemma resolver_cascade_eq (a b c d : Option DateTime)
    (k : Except String (Option DateTime)) :
    (match a with
     | some x => Except.ok (some x)
     | none =>
       match b with
       | some x => Except.ok (some x)
       | none =>
         match c with
         | some x => Except.ok (some x)
         | none =>
           match d with
           | some x => Except.ok (some x)
           | none => k)
    = (match [a, b, c, d].findSome? id with
       | some x => Except.ok (some x)
       | none => k) := by
  cases a <;> cases b <;> cases c <;> cases d <;> simp [List.findSome?_cons]

/-- C1: `get_best_date` equals the specification's resolver — adapters in
the strict fixed order ToolTags, ClassicExif (still-image extensions only),
HeicXmp (`.heic` only), MediaInfo (video extensions only), FilesystemStat
(only with fallback), short-circuiting on the first present result — and in
particular a parseable ToolTags value is returned for every extension and
fallback flag. -/
theorem C1_resolver_order (env : MetaEnv) (p : String) (u : Bool) :
    get_best_date env p u = resolve_spec env p u ∧
    ∀ d, get_exiftool_date env p = some d →
      get_best_date env p u = .ok (some d) := by
  constructor
  · unfold get_best_date resolve_spec
    exact resolver_cascade_eq _ _ _ _ _
  · intro d h
    unfold get_best_date
    simp [h]

/-- Environment in which the external tool reports a capture date for a
video file. -/
def env_tool : MetaEnv where
  strptime := strptime_w
  get_metadata := fun _ => .ok [("EXIF:DateTimeOriginal", "2023:04:13 14:30:15")]
  exifread_tags := fun _ => .ok (none, none)
  heic_xmp_create_date := fun _ => .ok none
  media_tracks := fun _ => .ok []
  stat := fun _ => .ok ⟨none, 0, 0⟩
  fromtimestamp := fun _ => ⟨1970, 1, 1, 0, 0, 0⟩
  fromtimestamp_fails := fun _ => false

theorem C1_resolver_order_witness :
    get_best_date env_tool "clip.mp4" true = .ok (some ⟨2023, 4, 13, 14, 30, 15⟩) :=
  (C1_resolver_order env_tool "clip.mp4" true).2 ⟨2023, 4, 13, 14, 30, 15⟩ (by decide)

/-! ### C2: the filesystem fallback is terminal -/

/-- C2: when every metadata adapter yields `Absent` and the fallback is
enabled, `get_best_date` never returns `Absent`: for a statable file it
returns the filesystem timestamp, preferring the birth/creation field when
the platform exposes one, else the status-change time, and falling back to
the last-modified time when the preferred field's conversion faults. -/
theorem C2_filesystem_fallback (env : MetaEnv) (p : String) (st : StatResult)
    (h1 : get_exiftool_date env p = none)
    (h2 : get_exif_date env p = none)
    (h3 : get_heic_exif_date env p = none)
    (h4 : get_media_date env p = none)
    (h5 : env.stat p = .ok st)
    (h6 : env.fromtimestamp_fails (st.st_birthtime.getD st.st_ctime) = false ∨
      env.fromtimestamp_fails st.st_mtime = false) :
    get_best_date env p true =
      .ok (some (if env.fromtimestamp_fails (st.st_birthtime.getD st.st_ctime)
        then env.fromtimestamp st.st_mtime
        else env.fromtimestamp (st.st_birthtime.getD st.st_ctime))) := by
  unfold get_best_date get_file_system_date
  rw [h1, h5]
  simp only [h2, h3, h4, ite_self]
  cases hb : st.st_birthtime with
  | none =>
    simp only [hb, Option.getD_none] at h6 ⊢
    cases hf : env.fromtimestamp_fails st.st_ctime with
    | false => simp [hf, Except.map]
    | true =>
      have hm : env.fromtimestamp_fails st.st_mtime = false := by
        rcases h6 with h | h
        · rw [hf] at h; cases h
        · exact h
      simp [hf, hm, Except.map]
  | some b =>
    simp only [hb, Option.getD_some] at h6 ⊢
    cases hf : env.fromtimestamp_fails b with
    | false => simp [hf, Except.map]
    | true =>
      have hm : env.fromtimestamp_fails st.st_mtime = false := by
        rcases h6 with h | h
        · rw [hf] at h; cases h
        · exact h
      simp [hf, hm, Except.map]

/-- Environment of a file with no usable embedded metadata but a healthy
stat result exposing a birth time. -/
def env_stat_only : MetaEnv where
  strptime := fun _ _ => none
  get_metadata := fun _ => .ok []
  exifread_tags := fun _ => .ok (none, none)
  heic_xmp_create_date := fun _ => .ok none
  media_tracks := fun _ => .ok []
  stat := fun _ => .ok ⟨some 86400, 100, 200⟩
  fromtimestamp := fun i => ⟨1970, 1, 1, 0, 0, (i.toNat / 3600) % 60⟩
  fromtimestamp_fails := fun _ => false

theorem C2_filesystem_fallback_witness :
    get_best_date env_stat_only "nometa.bin" true =
      .ok (some ⟨1970, 1, 1, 0, 0, 24⟩) := by
  rw [C2_filesystem_fallback env_stat_only "nometa.bin" ⟨some 86400, 100, 200⟩
    (by rfl) (by rfl) (by rfl) (by rfl) (by rfl) (Or.inl (by rfl))]
  rfl

/-! ### C3: adapter fault boundaries -/

/-- Environment in which every external operation raises — the tool and
every library are broken and the file itself is inaccessible to `os.stat`. -/
def env_faulty : MetaEnv where
  strptime := fun _ _ => none
  get_metadata := fun _ => .error "permission denied"
  exifread_tags := fun _ => .error "permission denied"
  heic_xmp_create_date := fun _ => .error "permission denied"
  media_tracks := fun _ => .error "permission denied"
  stat := fun _ => .error "permission denied"
  fromtimestamp := fun _ => ⟨1970, 1, 1, 0, 0, 0⟩
  fromtimestamp_fails := fun _ => false

/-- C3 counterexample: the FilesystemStat adapter does not convert an
inaccessible-file fault to Absent — its `os.stat` call sits outside the
`try` block, so the fault propagates out of `get_file_system_date` and out
of `get_best_date` itself. -/
theorem C3_counterexample :
    get_file_system_date env_faulty "locked.bin" = .error "permission denied" ∧
    get_best_date env_faulty "locked.bin" true = .error "permission denied" := by
  exact ⟨rfl, rfl⟩

/-- C3 amended: the four metadata adapters (ToolTags, ClassicExif, HeicXmp,
MediaInfo) catch every fault of their backing operation and convert it to
Absent; the FilesystemStat adapter catches only timestamp-conversion faults
(falling back to the last-modified time) while a fault of the `os.stat`
read itself propagates to the caller. -/
theorem C3_adapter_fault_boundaries (env : MetaEnv) (p : String) (e : String) :
    (env.get_metadata p = .error e → get_exiftool_date env p = none) ∧
    (env.exifread_tags p = .error e → get_exif_date env p = none) ∧
    (env.heic_xmp_create_date p = .error e → get_heic_exif_date env p = none) ∧
    (env.media_tracks p = .error e → get_media_date env p = none) ∧
    (env.stat p = .error e → get_file_system_date env p = .error e) := by
  refine ⟨?_, ?_, ?_, ?_, ?_⟩ <;> intro h
  · simp [get_exiftool_date, h]
  · simp [get_exif_date, h]
  · simp [get_heic_exif_date, h]
  · simp [get_media_date, h]
  · simp [get_file_system_date, h]

theorem C3_adapter_fault_boundaries_witness :
    get_exiftool_date env_faulty "locked.bin" = none ∧
    get_exif_date env_faulty "locked.bin" = none ∧
    get_heic_exif_date env_faulty "locked.bin" = none ∧
    get_media_date env_faulty "locked.bin" = none ∧
    get_file_system_date env_faulty "locked.bin" = .error "permission denied" := by
  have h := C3_adapter_fault_boundaries env_faulty "locked.bin" "permission denied"
  exact ⟨h.1 rfl, h.2.1 rfl, h.2.2.1 rfl, h.2.2.2.1 rfl, h.2.2.2.2 rfl⟩

/-! ### C7: history stack lifecycle -/

lemma rename_files_snd (env : BatchEnv) (settings : NamingSettings)
    (dir0 : List String) (files : List String)
    (history : List (List (String × String))) :
    (rename_files env settings dir0 files history).2 =
      if (rename_files env settings dir0 files history).1.rename_pairs.isEmpty
      then history
      else (rename_files env settings dir0 files history).1.rename_pairs :: history :=
  rfl

/-- C7: the history stack starts empty, gains exactly one batch per run
that produced at least one pair while a pair-less run leaves it unchanged,
loses exactly one batch per undo of a non-empty history, and an undo of an
empty history reports `"Nothing to undo."` without touching the directory
or the history. -/
theorem C7_history_lifecycle (env : BatchEnv) (settings : NamingSettings)
    (dir0 : List String) (files : List String)
    (history : List (List (String × String)))
    (fault : String → String → Option String) (dir : List String) :
    initial_history = [] ∧
    ((rename_files env settings dir0 files history).1.rename_pairs = [] →
      (rename_files env settings dir0 files history).2 = history) ∧
    ((rename_files env settings dir0 files history).1.rename_pairs ≠ [] →
      (rename_files env settings dir0 files history).2 =
        (rename_files env settings dir0 files history).1.rename_pairs :: history ∧
      (rename_files env settings dir0 files history).2.length =
        history.length + 1) ∧
    (history ≠ [] →
      (undo_last_rename fault history dir).2.length + 1 = history.length) ∧
    undo_last_rename fault [] dir = (⟨dir, [], ["Nothing to undo."]⟩, []) := by
  refine ⟨rfl, ?_, ?_, ?_, rfl⟩
  · intro h
    rw [rename_files_snd, h]
    rfl
  · intro h
    have hne : (rename_files env settings dir0 files history).1.rename_pairs.isEmpty = false := by
      simpa [List.isEmpty_iff] using h
    rw [rename_files_snd, hne]
    simp
  · intro h
    cases history with
    | nil => exact absurd rfl h
    | cons ps rest => simp [undo_last_rename]

/-- Environment for the lifecycle witness: no file yields a date, so a run
produces no pairs. -/
def env_noop : BatchEnv where
  best_date := fun _ => .ok none
  rename_fault := fun _ _ => none
  stop_at := fun _ => false

/-- Settings shared by the lifecycle witness run. -/
def settings_w : NamingSettings := ⟨"%Y-%m-%d_%H-%M-%S", "", "", 0⟩

theorem C7_history_lifecycle_witness :
    initial_history = [] ∧
    (rename_files env_noop settings_w ["a.jpg"] ["a.jpg"] []).2 = [] ∧
    (undo_last_rename (fun _ _ => none) [[("a.jpg", "b.jpg")]] ["b.jpg"]).2.length + 1 = 1 ∧
    undo_last_rename (fun _ _ => none) [] ["x.jpg"] =
      (⟨["x.jpg"], [], ["Nothing to undo."]⟩, []) := by
  refine ⟨(C7_history_lifecycle env_noop settings_w ["a.jpg"] ["a.jpg"] []
      (fun _ _ => none) ["x.jpg"]).1, ?_, ?_, ?_⟩
  · exact (C7_history_lifecycle env_noop settings_w ["a.jpg"] ["a.jpg"] []
      (fun _ _ => none) ["x.jpg"]).2.1 (by rfl)
  · exact (C7_history_lifecycle env_noop settings_w ["a.jpg"] ["a.jpg"]
      [[("a.jpg", "b.jpg")]] (fun _ _ => none) ["b.jpg"]).2.2.2.1 (by simp)
  · exact (C7_history_lifecycle env_noop settings_w ["a.jpg"] ["a.jpg"] []
      (fun _ _ => none) ["x.jpg"]).2.2.2.2

/-! ### C6: undo of the most recent batch -/

lemma undo_step_count (fault : String → String → Option String)
    (st : UndoState) (pair : String × String) :
    (undo_step fault st pair).undone.length + (undo_step fault st pair).errors.length
      = st.undone.length + st.errors.length + 1 := by
  rcases pair with ⟨old_path, new_path⟩
  unfold undo_step
  by_cases h1 : new_path ∈ st.dir
  · by_cases h2 : old_path ∈ st.dir
    · simp [h1, h2]; omega
    · cases h3 : fault new_path old_path <;> simp [h1, h2, h3] <;> omega
  · simp [h1]; omega

lemma undo_fold_count (fault : String → String → Option String) :
    ∀ (l : List (String × String)) (st : UndoState),
    (l.foldl (undo_step fault) st).undone.length +
      (l.foldl (undo_step fault) st).errors.length
      = st.undone.length + st.errors.length + l.length := by
  intro l
  induction l with
  | nil => intro st; simp
  | cons p t ih =>
    intro st
    have := undo_step_count fault st p
    simp only [List.foldl_cons, List.length_cons]
    rw [ih (undo_step fault st p)]
    omega

/-- C6: undoing after a batch pops exactly one history entry; the pairs are
replayed in reverse order; a single-pair batch `A → B` with `B` present and
`A` free is restored exactly (`A` back in the folder, `B` removed, no
errors); a pair whose destination is missing, or whose original name is
occupied, contributes a per-pair error entry and leaves the folder
untouched for that pair; and every pair of the batch is attempted — the
undone and error entries together account for all of them. -/
theorem C6_undo_last_batch (fault : String → String → Option String)
    (hist : List (List (String × String))) (ps : List (String × String))
    (dir : List String) (A B : String) :
    ((undo_last_rename fault (ps :: hist) dir).2 = hist) ∧
    ((undo_last_rename fault (ps :: hist) dir).1 =
      ps.reverse.foldl (undo_step fault) ⟨dir, [], []⟩) ∧
    (ps = [(A, B)] → B ∈ dir → A ∉ dir → fault B A = none →
      (undo_last_rename fault (ps :: hist) dir).1.dir = A :: dir.erase B ∧
      (undo_last_rename fault (ps :: hist) dir).1.undone = [(B, A)] ∧
      (undo_last_rename fault (ps :: hist) dir).1.errors = []) ∧
    ((undo_last_rename fault (ps :: hist) dir).1.undone.length +
      (undo_last_rename fault (ps :: hist) dir).1.errors.length = ps.length) ∧
    (∀ (st : UndoState) (o n : String), n ∉ st.dir →
      undo_step fault st (o, n) =
        { st with errors := st.errors ++ ["File not found: " ++ n] }) ∧
    (∀ (st : UndoState) (o n : String), n ∈ st.dir → o ∈ st.dir →
      undo_step fault st (o, n) =
        { st with errors := st.errors ++ ["Target exists: " ++ o] }) := by
  refine ⟨rfl, rfl, ?_, ?_, ?_, ?_⟩
  · intro hps hB hA hf
    subst hps
    simp [undo_last_rename, undo_step, hB, hA, hf]
  · have h := undo_fold_count fault ps.reverse ⟨dir, [], []⟩
    simpa [undo_last_rename] using h
  · intro st o n hn
    simp [undo_step, hn]
  · intro st o n hn ho
    simp [undo_step, hn, ho]

theorem C6_undo_last_batch_witness :
    ((undo_last_rename (fun _ _ => none)
        [[("old.jpg", "new.jpg")]] ["new.jpg", "other.png"]).2 = []) ∧
    (undo_last_rename (fun _ _ => none)
        [[("old.jpg", "new.jpg")]] ["new.jpg", "other.png"]).1.dir =
      ["old.jpg", "other.png"] ∧
    (undo_last_rename (fun _ _ => none)
        [[("old.jpg", "new.jpg")]] ["new.jpg", "other.png"]).1.undone =
      [("new.jpg", "old.jpg")] ∧
    (undo_last_rename (fun _ _ => none)
        [[("old.jpg", "new.jpg")]] ["new.jpg", "other.png"]).1.errors = [] := by
  have h := C6_undo_last_batch (fun _ _ => none) [] [("old.jpg", "new.jpg")]
    ["new.jpg", "other.png"] "old.jpg" "new.jpg"
  have h3 := h.2.2.1 rfl (by decide) (by decide) rfl
  exact ⟨h.1, by simpa using h3.1, h3.2.1, h3.2.2⟩

/-! ### C4: batch fault isolation and bucket accounting -/

lemma rename_step_count (env : BatchEnv) (settings : NamingSettings)
    (st : BatchState) (f : String) :
    (rename_step env settings st f).renamed_files.length +
      (rename_step env settings st f).files_without_metadata.length +
      (rename_step env settings st f).errors.length
      = st.renamed_files.length + st.files_without_metadata.length +
        st.errors.length + 1 := by
  unfold rename_step
  split
  · simp only [List.length_append, List.length_cons, List.length_nil]
    omega
  · simp only [List.length_append, List.length_cons, List.length_nil]
    omega
  · dsimp only
    split
    · simp only [List.length_append, List.length_cons, List.length_nil]
      omega
    · simp only [List.length_append, List.length_cons, List.length_nil]
      omega

lemma rename_step_errors_extend (env : BatchEnv) (settings : NamingSettings)
    (st : BatchState) (f : String) :
    ∃ t, (rename_step env settings st f).errors = st.errors ++ t := by
  unfold rename_step
  split
  · exact ⟨_, rfl⟩
  · exact ⟨[], by simp⟩
  · dsimp only
    split
    · exact ⟨_, rfl⟩
    · exact ⟨[], by simp⟩

lemma rename_loop_errors_extend (env : BatchEnv) (settings : NamingSettings) :
    ∀ (l : List String) (idx : Nat) (st : BatchState),
    ∃ t, (rename_loop env settings l idx st).errors = st.errors ++ t := by
  intro l
  induction l with
  | nil => intro idx st; exact ⟨[], by simp [rename_loop]⟩
  | cons g t ih =>
    intro idx st
    by_cases h : env.stop_at idx
    · exact ⟨[], by simp [rename_loop, h]⟩
    · obtain ⟨t1, e1⟩ := rename_step_errors_extend env settings st g
      obtain ⟨t2, e2⟩ := ih (idx + 1) (rename_step env settings st g)
      refine ⟨t1 ++ t2, ?_⟩
      simp [rename_loop, h, e2, e1]

lemma rename_loop_count (env : BatchEnv) (settings : NamingSettings)
    (hstop : ∀ i, env.stop_at i = false) :
    ∀ (l : List String) (idx : Nat) (st : BatchState),
    (rename_loop env settings l idx st).renamed_files.length +
      (rename_loop env settings l idx st).files_without_metadata.length +
      (rename_loop env settings l idx st).errors.length
      = st.renamed_files.length + st.files_without_metadata.length +
        st.errors.length + l.length := by
  intro l
  induction l with
  | nil => intro idx st; simp [rename_loop]
  | cons g t ih =>
    intro idx st
    simp only [rename_loop, hstop idx, if_false, Bool.false_eq_true, List.length_cons]
    rw [ih (idx + 1) (rename_step env settings st g)]
    have := rename_step_count env settings st g
    omega

lemma rename_loop_error_mem (env : BatchEnv) (settings : NamingSettings)
    (hstop : ∀ i, env.stop_at i = false) :
    ∀ (l : List String) (idx : Nat) (st : BatchState) (f e : String),
    f ∈ l → env.best_date f = .error e →
    (f ++ " (Error: " ++ e ++ ")") ∈ (rename_loop env settings l idx st).errors := by
  intro l
  induction l with
  | nil =>
    intro idx st f e hf _
    simp at hf
  | cons g t ih =>
    intro idx st f e hf he
    simp only [rename_loop, hstop idx, if_false, Bool.false_eq_true]
    rcases List.mem_cons.mp hf with rfl | hf2
    · have hstep : (rename_step env settings st f).errors =
          st.errors ++ [f ++ " (Error: " ++ e ++ ")"] := by
        unfold rename_step
        rw [he]
      obtain ⟨t2, e2⟩ :=
        rename_loop_errors_extend env settings t (idx + 1) (rename_step env settings st f)
      rw [e2, hstep]
      simp
    · exact ih (idx + 1) (rename_step env settings st g) f e hf2 he

/-- C4: in an uncancelled batch run, a per-file fault (a raised metadata
resolution or rename call) is recorded as that file's labelled entry in the
errors list and the remaining files are still processed; on completion the
three buckets — renamed, no-metadata and errors — together account for
exactly one entry per input file. -/
theorem C4_batch_fault_isolation (env : BatchEnv) (settings : NamingSettings)
    (dir0 : List String) (files : List String)
    (history : List (List (String × String)))
    (hstop : ∀ i, env.stop_at i = false) :
    ((rename_files env settings dir0 files history).1.renamed_files.length +
      (rename_files env settings dir0 files history).1.files_without_metadata.length +
      (rename_files env settings dir0 files history).1.errors.length
      = files.length) ∧
    (∀ f e, f ∈ files → env.best_date f = .error e →
      (f ++ " (Error: " ++ e ++ ")") ∈
        (rename_files env settings dir0 files history).1.errors) := by
  constructor
  · have h := rename_loop_count env settings hstop files 0 (init_batch_state dir0)
    simpa [rename_files, init_batch_state] using h
  · intro f e hf he
    exact rename_loop_error_mem env settings hstop files 0 (init_batch_state dir0) f e hf he

/-- Environment for the fault-isolation witness: one file's metadata read
raises, the other file simply has no date. -/
def env_faulty_file : BatchEnv where
  best_date := fun f => if f = "bad.jpg" then .error "Read failure" else .ok none
  rename_fault := fun _ _ => none
  stop_at := fun _ => false

theorem C4_batch_fault_isolation_witness :
    ((rename_files env_faulty_file settings_w ["bad.jpg", "noexif.png"]
        ["bad.jpg", "noexif.png"] []).1.renamed_files.length +
      (rename_files env_faulty_file settings_w ["bad.jpg", "noexif.png"]
        ["bad.jpg", "noexif.png"] []).1.files_without_metadata.length +
      (rename_files env_faulty_file settings_w ["bad.jpg", "noexif.png"]
        ["bad.jpg", "noexif.png"] []).1.errors.length = 2) ∧
    "bad.jpg (Error: Read failure)" ∈
      (rename_files env_faulty_file settings_w ["bad.jpg", "noexif.png"]
        ["bad.jpg", "noexif.png"] []).1.errors := by
  have h := C4_batch_fault_isolation env_faulty_file settings_w
    ["bad.jpg", "noexif.png"] ["bad.jpg", "noexif.png"] [] (fun _ => rfl)
  exact ⟨h.1, h.2 "bad.jpg" "Read failure" (by decide) rfl⟩

/-! ### C10: a candidate equal to the file's own name collides with itself -/

/-- C10: when the formatted candidate equals the file's own current name
(original-only pattern with empty prefix and suffix), the collision check
counts the file's own directory entry as a conflict, so the run renames the
file to its stem plus `_1` plus extension rather than keeping the name. -/
theorem C10_self_name_collision (env : BatchEnv) (fn fmt : String)
    (dir0 : List String) (history : List (List (String × String)))
    (d : DateTime)
    (hdate : env.best_date fn = .ok (some d))
    (hstop : env.stop_at 0 = false)
    (hmem : fn ∈ dir0)
    (hfault : env.rename_fault fn (numbered_name (splitext fn).1 (splitext fn).2 1) = none)
    (hfresh : numbered_name (splitext fn).1 (splitext fn).2 1 ∉ dir0) :
    (rename_files env ⟨fmt, "", "", 2⟩ dir0 [fn] history).1.renamed_files
      = [numbered_name (splitext fn).1 (splitext fn).2 1] ∧
    numbered_name (splitext fn).1 (splitext fn).2 1 ≠ fn := by
  constructor
  · have hcand : get_formatted_name d fn fmt "" "" 2 = fn := by
      unfold get_formatted_name
      norm_num
      exact splitext_append fn
    have hffn : find_free_name (init_batch_state dir0) fn =
        numbered_name (splitext fn).1 (splitext fn).2 1 := by
      unfold find_free_name
      have hused : name_used (init_batch_state dir0) fn = true := by
        simp [name_used, init_batch_state, hmem]
      rw [hused]
      have hnotused : name_used (init_batch_state dir0)
          (numbered_name (splitext fn).1 (splitext fn).2 1) = false := by
        simp [name_used, init_batch_state, hfresh]
      simp only [init_batch_state] at hnotused
      simp only [init_batch_state, List.length_nil, Nat.zero_add, if_true]
      simp only [collision_loop, hnotused, Bool.false_eq_true, if_false]
    dsimp only [rename_files]
    simp only [rename_loop, hstop, Bool.false_eq_true, if_false]
    unfold rename_step
    rw [hdate]
    dsimp only
    rw [hcand, hffn, hfault]
    simp [init_batch_state]
  · have h := numbered_name_ne_plain (splitext fn).1 (splitext fn).2 1
    rwa [splitext_append] at h

/-- Environment for the self-collision witness: every file resolves to the
same date and renames succeed. -/
def env_selfdate : BatchEnv where
  best_date := fun _ => .ok (some ⟨2023, 4, 13, 14, 30, 15⟩)
  rename_fault := fun _ _ => none
  stop_at := fun _ => false

theorem C10_self_name_collision_witness :
    (rename_files env_selfdate ⟨"%Y", "", "", 2⟩ ["IMG.jpg"] ["IMG.jpg"] []).1.renamed_files
      = ["IMG_1.jpg"] := by
  have h := C10_self_name_collision env_selfdate "IMG.jpg" "%Y" ["IMG.jpg"] []
    ⟨2023, 4, 13, 14, 30, 15⟩ rfl rfl (by decide) rfl (by decide)
  rw [h.1]
  decide

/-! ### C5: deterministic collision-suffix assignment -/

/-- The family of names the collision loop assigns for one shared candidate
`base`: the candidate itself, then stem + `_i` + extension for `i ≥ 1`. -/
def collision_family (base : String) (i : Nat) : String :=
  if i = 0 then base else numbered_name (splitext base).1 (splitext base).2 i

lemma collision_family_inj (base : String) :
    Function.Injective (collision_family base) := by
  intro i j h
  unfold collision_family at h
  by_cases hi : i = 0 <;> by_cases hj : j = 0
  · omega
  · exfalso
    rw [if_pos hi, if_neg hj] at h
    have hne := numbered_name_ne_plain (splitext base).1 (splitext base).2 j
    rw [splitext_append] at hne
    exact hne h.symm
  · exfalso
    rw [if_neg hi, if_pos hj] at h
    have hne := numbered_name_ne_plain (splitext base).1 (splitext base).2 i
    rw [splitext_append] at hne
    exact hne h
  · rw [if_neg hi, if_neg hj] at h
    exact numbered_name_inj h

lemma collision_loop_exits (u : String → Bool) (r e : String) :
    ∀ (m i fuel : Nat),
    (∀ j, i ≤ j → j < i + m → u (numbered_name r e j) = true) →
    u (numbered_name r e (i + m)) = false →
    m < fuel →
    collision_loop u r e i fuel = numbered_name r e (i + m) := by
  intro m
  induction m with
  | zero =>
    intro i fuel hmid hfin hfuel
    cases fuel with
    | zero => omega
    | succ f =>
      simp only [collision_loop]
      rw [Nat.add_zero] at hfin
      simp [hfin]
  | succ m ih =>
    intro i fuel hmid hfin hfuel
    cases fuel with
    | zero => omega
    | succ f =>
      simp only [collision_loop]
      have h1 : u (numbered_name r e i) = true := hmid i (le_refl i) (by omega)
      rw [h1]
      simp only [if_true]
      have harg : i + 1 + m = i + (m + 1) := by omega
      have := ih (i + 1) f
        (fun j hj1 hj2 => hmid j (by omega) (by omega))
        (by rw [harg]; exact hfin) (by omega)
      rw [this, harg]

lemma find_free_name_family (st : BatchState) (base : String)
    (dir0 : List String) (k : Nat)
    (Hns : st.name_set = (List.range k).map (collision_family base))
    (Hdir : ∀ x ∈ st.dir, x ∈ dir0 ∨ ∃ j < k, x = collision_family base j)
    (Hfresh : ∀ i ≤ k, collision_family base i ∉ dir0) :
    find_free_name st base = collision_family base k := by
  have hnotdir : collision_family base k ∉ st.dir := by
    intro hx
    rcases Hdir _ hx with h0 | ⟨j, hj, hjeq⟩
    · exact Hfresh k (le_refl k) h0
    · have := collision_family_inj base hjeq
      omega
  by_cases hk : k = 0
  · subst hk
    have hbase : collision_family base 0 = base := by simp [collision_family]
    rw [hbase] at hnotdir
    have hused : name_used st base = false := by
      simp [name_used, Hns, hnotdir]
    unfold find_free_name
    rw [hused]
    simp [collision_family]
  · have hused : name_used st base = true := by
      have hmem : base ∈ st.name_set := by
        rw [Hns]
        refine List.mem_map.mpr ⟨0, ?_, ?_⟩
        · simp [List.mem_range]; omega
        · simp [collision_family]
      simp [name_used, hmem]
    unfold find_free_name
    rw [hused]
    simp only [if_true]
    have hnsk : collision_family base k = numbered_name (splitext base).1 (splitext base).2 k := by
      simp [collision_family, hk]
    have hmid : ∀ j, 1 ≤ j → j < 1 + (k - 1) →
        name_used st (numbered_name (splitext base).1 (splitext base).2 j) = true := by
      intro j hj1 hj2
      have hmem : numbered_name (splitext base).1 (splitext base).2 j ∈ st.name_set := by
        rw [Hns]
        refine List.mem_map.mpr ⟨j, ?_, ?_⟩
        · simp [List.mem_range]; omega
        · simp [collision_family]; omega
      simp [name_used, hmem]
    have hfin : name_used st (numbered_name (splitext base).1 (splitext base).2 (1 + (k - 1))) = false := by
      have hkk : 1 + (k - 1) = k := by omega
      rw [hkk]
      have hnotset : numbered_name (splitext base).1 (splitext base).2 k ∉ st.name_set := by
        rw [Hns]
        intro hmem
        rcases List.mem_map.mp hmem with ⟨j, hjr, hjeq⟩
        have hjk : j < k := List.mem_range.mp hjr
        by_cases hj0 : j = 0
        · subst hj0
          simp only [collision_family, if_pos rfl] at hjeq
          have hne := numbered_name_ne_plain (splitext base).1 (splitext base).2 k
          rw [splitext_append] at hne
          exact hne hjeq.symm
        · simp only [collision_family, if_neg hj0] at hjeq
          have := numbered_name_inj hjeq
          omega
      have hnotdir2 : numbered_name (splitext base).1 (splitext base).2 k ∉ st.dir := by
        rw [← hnsk]
        exact hnotdir
      simp [name_used, hnotset, hnotdir2]
    have hlen : st.name_set.length = k := by
      rw [Hns]; simp
    have hfuel : k - 1 < st.name_set.length + st.dir.length + 1 := by omega
    have := collision_loop_exits (name_used st) (splitext base).1 (splitext base).2
      (k - 1) 1 (st.name_set.length + st.dir.length + 1) hmid hfin hfuel
    rw [this, hnsk]
    congr 1
    omega

lemma rename_loop_family (env : BatchEnv) (settings : NamingSettings)
    (base : String) (dval : String → DateTime) (dir0 : List String)
    (hstop : ∀ i, env.stop_at i = false)
    (hfault : ∀ a b, env.rename_fault a b = none) :
    ∀ (fs : List String) (k idx : Nat) (st : BatchState),
    st.name_set = (List.range k).map (collision_family base) →
    st.renamed_files = (List.range k).map (collision_family base) →
    (∀ x ∈ st.dir, x ∈ dir0 ∨ ∃ j < k, x = collision_family base j) →
    (∀ f ∈ fs, env.best_date f = .ok (some (dval f)) ∧
      get_formatted_name (dval f) f settings.format_str settings.prefix_str
        settings.suffix_str settings.radio_option = base) →
    (∀ i < k + fs.length, collision_family base i ∉ dir0) →
    (rename_loop env settings fs idx st).renamed_files =
      (List.range (k + fs.length)).map (collision_family base) := by
  intro fs
  induction fs with
  | nil =>
    intro k idx st h1 h2 h3 h4 h5
    simpa using h2
  | cons f t ih =>
    intro k idx st h1 h2 h3 h4 h5
    simp only [rename_loop, hstop idx, Bool.false_eq_true, if_false]
    obtain ⟨hbd, hfmt⟩ := h4 f (List.mem_cons_self f t)
    have hffn : find_free_name st base = collision_family base k :=
      find_free_name_family st base dir0 k h1 h3
        (fun i hi => h5 i (by simp only [List.length_cons]; omega))
    have hstep : rename_step env settings st f =
        { dir := collision_family base k :: st.dir.erase f
          renamed_files := st.renamed_files ++ [collision_family base k]
          files_without_metadata := st.files_without_metadata
          errors := st.errors
          rename_pairs := st.rename_pairs ++ [(f, collision_family base k)]
          name_set := st.name_set ++ [collision_family base k] } := by
      unfold rename_step
      rw [hbd]
      dsimp only
      rw [hfmt, hffn, hfault f (collision_family base k)]
    rw [hstep]
    have hres := ih (k + 1) (idx + 1)
      { dir := collision_family base k :: st.dir.erase f
        renamed_files := st.renamed_files ++ [collision_family base k]
        files_without_metadata := st.files_without_metadata
        errors := st.errors
        rename_pairs := st.rename_pairs ++ [(f, collision_family base k)]
        name_set := st.name_set ++ [collision_family base k] }
      (by simp [h1, List.range_succ])
      (by simp [h2, List.range_succ])
      (by
        intro x hx
        rcases List.mem_cons.mp hx with rfl | hx2
        · exact Or.inr ⟨k, by omega, rfl⟩
        · rcases h3 x (List.mem_of_mem_erase hx2) with h0 | ⟨j, hj, hjeq⟩
          · exact Or.inl h0
          · exact Or.inr ⟨j, by omega, hjeq⟩)
      (fun g hg => h4 g (List.mem_cons_of_mem f hg))
      (by
        intro i hi
        exact h5 i (by simp only [List.length_cons]; omega))
    rw [hres]
    have harith : k + 1 + t.length = k + (f :: t).length := by
      simp only [List.length_cons]
      omega
    rw [harith]

/-- C5: in a batch whose files all format to one identical candidate `base`
that is (together with its numbered variants) unused in the target folder,
the collision loop assigns, in input order, exactly the names `base`,
stem + `_1` + ext, stem + `_2` + ext, …, one per file, and these names are
pairwise distinct; the run is a pure function of the directory snapshot and
input order, so the assignment is deterministic. -/
theorem C5_collision_sequence (env : BatchEnv) (settings : NamingSettings)
    (base : String) (dval : String → DateTime)
    (dir0 : List String) (files : List String)
    (history : List (List (String × String)))
    (hstop : ∀ i, env.stop_at i = false)
    (hfault : ∀ a b, env.rename_fault a b = none)
    (hresolve : ∀ f ∈ files, env.best_date f = .ok (some (dval f)))
    (hformat : ∀ f ∈ files, get_formatted_name (dval f) f settings.format_str
      settings.prefix_str settings.suffix_str settings.radio_option = base)
    (hfresh : ∀ i < files.length, collision_family base i ∉ dir0) :
    (rename_files env settings dir0 files history).1.renamed_files =
      (List.range files.length).map (collision_family base) ∧
    ((List.range files.length).map (collision_family base)).Nodup ∧
    collision_family base 0 = base ∧
    (∀ i, 1 ≤ i → collision_family base i =
      (splitext base).1 ++ "_" ++ nat_to_dec i ++ (splitext base).2) := by
  refine ⟨?_, ?_, by simp [collision_family], ?_⟩
  · have h := rename_loop_family env settings base dval dir0 hstop hfault
      files 0 0 (init_batch_state dir0)
      (by simp [init_batch_state])
      (by simp [init_batch_state])
      (by intro x hx; exact Or.inl hx)
      (fun f hf => ⟨hresolve f hf, hformat f hf⟩)
      (by simpa using hfresh)
    simpa [rename_files] using h
  · exact (List.nodup_range files.length).map (collision_family_inj base)
  · intro i hi
    simp only [collision_family, numbered_name]
    rw [if_neg (by omega)]

/-- Environment for the collision witness: both files resolve to the same
capture date. -/
def env_samedate : BatchEnv where
  best_date := fun _ => .ok (some ⟨2023, 4, 13, 14, 30, 15⟩)
  rename_fault := fun _ _ => none
  stop_at := fun _ => false

theorem C5_collision_sequence_witness :
    (rename_files env_samedate ⟨"%Y-%m-%d_%H-%M-%S", "", "", 0⟩
        ["a.jpg", "b.jpg"] ["a.jpg", "b.jpg"] []).1.renamed_files =
      ["2023-04-13_14-30-15.jpg", "2023-04-13_14-30-15_1.jpg"] := by
  have h := C5_collision_sequence env_samedate ⟨"%Y-%m-%d_%H-%M-%S", "", "", 0⟩
    "2023-04-13_14-30-15.jpg" (fun _ => ⟨2023, 4, 13, 14, 30, 15⟩)
    ["a.jpg", "b.jpg"] ["a.jpg", "b.jpg"] []
    (fun _ => rfl) (fun _ _ => rfl)
    (fun f _ => rfl)
    (by
      intro f hf
      rcases (by simpa using hf : f = "a.jpg" ∨ f = "b.jpg") with rfl | rfl <;> decide)
    (by decide)
  rw [h.1]
  decide
